import Mathlib

/-!
Verification of `base-app-layer`: a shallow embedding of the business
orchestration logic in
`platform-services/archive/airflow/dags/data_ingestion_orchestrator.py`
and of the capability / Kubernetes-integration testers, together with
theorems settling the specification's claims about them.
-/

namespace BaseAppLayer

/-! ### Business configuration (`BUSINESS_CONFIG`) -/

/-- One entry of the data-source lists in `BUSINESS_CONFIG`:
a named source with a priority tier and a base SLA in minutes. -/
structure SourceCfg where
  name : String
  priority : String
  sla_minutes : Nat
deriving DecidableEq, Repr

/-- `BUSINESS_CONFIG['market_data_sources']`. -/
def market_data_sources : List SourceCfg :=
  [ ⟨"bloomberg_api", "critical", 5⟩,
    ⟨"reuters_api", "high", 10⟩,
    ⟨"nyse_feed", "high", 15⟩ ]

/-- `BUSINESS_CONFIG['reference_data_sources']`. -/
def reference_data_sources : List SourceCfg :=
  [ ⟨"master_securities_db", "medium", 60⟩,
    ⟨"corporate_actions_api", "medium", 120⟩ ]

/-- `BUSINESS_CONFIG['alternative_data_sources']`. -/
def alternative_data_sources : List SourceCfg :=
  [ ⟨"social_sentiment_api", "low", 240⟩,
    ⟨"satellite_imagery", "low", 480⟩ ]

/-- The keys of `BUSINESS_CONFIG['retry_policies']`: the priority tiers. -/
def retry_policy_tiers : List String :=
  ["critical", "high", "medium", "low"]

/-- The concatenation `market + reference + alternative` formed inside
`select_data_sources` and `calculate_sla_deadline`. -/
def all_sources : List SourceCfg :=
  market_data_sources ++ reference_data_sources ++ alternative_data_sources

/-! ### `determine_business_priority`

The Python function reads `current_time.hour` and `current_time.weekday()`
(Monday = 0 … Sunday = 6); the minute component is never consulted, but we
keep it as an argument so that claims about wall-clock times can be stated.
-/

/-- `determine_business_priority`: classify the current wall-clock time.
The source tests `current_time.hour >= 9 and current_time.hour <= 16 and
current_time.weekday() < 5`, then `current_time.weekday() >= 5`. -/
def determine_business_priority (hour _minute weekday : Nat) : String :=
  if 9 ≤ hour ∧ hour ≤ 16 ∧ weekday < 5 then "market_hours_critical"
  else if 5 ≤ weekday then "weekend_maintenance"
  else "off_hours_standard"

/-- The bucket the specification's words assign to a wall-clock time:
`market_hours_critical` when the time falls on a weekday between 09:00 and
16:00 (measured in minutes of the day), `weekend_maintenance` on Saturday or
Sunday, `off_hours_standard` otherwise.  Written from the spec, to be
compared with `determine_business_priority`. -/
def spec_business_priority (hour minute weekday : Nat) : String :=
  if 9 * 60 ≤ hour * 60 + minute ∧ hour * 60 + minute ≤ 16 * 60 ∧ weekday < 5 then
    "market_hours_critical"
  else if 5 ≤ weekday then "weekend_maintenance"
  else "off_hours_standard"

/-! ### `select_data_sources`

The upstream value is pulled over XCom and may be absent (`None`), so the
business context is modelled as `Option String`; Python's `None == "..."`
is `False`, matching `bc = some "..."` being false at `none`. -/

/-- `select_data_sources`: choose the source names to process for the
pulled business context. -/
def select_data_sources (business_context : Option String) : List String :=
  if business_context = some "market_hours_critical" then
    ((market_data_sources.filter
        (fun s => s.priority = "critical" ∨ s.priority = "high")).map (·.name))
      ++ reference_data_sources.map (·.name)
  else if business_context = some "off_hours_standard" then
    all_sources.map (·.name)
  else if business_context = some "weekend_maintenance" then
    alternative_data_sources.map (·.name)
  else []

/-! ### `calculate_sla_deadline`

Time is modelled as minutes since an epoch (`now : Nat`); the function
returns the deadline in the same clock.  `int(sla_minutes * 0.5)` truncates
toward zero, which on the table's natural numbers is `sla_minutes / 2`;
`int(sla_minutes * 2.0)` is `sla_minutes * 2`. -/

/-- The business-context adjustment applied to a source's base SLA minutes
inside `calculate_sla_deadline`. -/
def adjust_sla_minutes (sla_minutes : Nat) (business_context : String) : Nat :=
  if business_context = "market_hours_critical" then sla_minutes / 2
  else if business_context = "weekend_maintenance" then sla_minutes * 2
  else sla_minutes

/-- `calculate_sla_deadline`: look the source up in the concatenated table;
if absent, return `now` plus one hour, otherwise `now` plus the adjusted
SLA minutes. -/
def calculate_sla_deadline (now : Nat) (source_name business_context : String) : Nat :=
  match all_sources.find? (fun s => s.name = source_name) with
  | none => now + 60
  | some cfg => now + adjust_sla_minutes cfg.sla_minutes business_context

/-- The multiplier the specification names for each business context. -/
def spec_sla_multiplier (business_context : String) : ℚ :=
  if business_context = "market_hours_critical" then 1 / 2
  else if business_context = "weekend_maintenance" then 2
  else 1

end BaseAppLayer

namespace BaseAppLayer

/-! ### Capability and Kubernetes-integration testers

The testers build Python dictionaries; these are modelled as association
lists of JSON-like values, with `pyDictSet` giving Python's
`d[k] = v` semantics (overwrite an existing binding, else append). -/

/-- A JSON-like value, for the dictionaries the testers build. -/
inductive JVal where
  | str (s : String)
  | num (n : Nat)
  | obj (kvs : List (String × JVal))

/-- A Python dict of JSON-like values. -/
abbrev JDict := List (String × JVal)

/-- Python `d.get(k)`: the binding of the key, if any. -/
def jget (d : JDict) (k : String) : Option JVal :=
  (d.find? (fun p => p.1 = k)).map (·.2)

/-- Python's `d.get(k) == s` for a string literal `s`: `False` when the
key is absent or the value is not that string. -/
def jeqStr (d : JDict) (k s : String) : Bool :=
  match jget d k with
  | some (.str t) => t = s
  | _ => false

/-- Python `d[k] = v`: overwrite the binding if the key is present,
otherwise append it. -/
def pyDictSet {α : Type} (d : List (String × α)) (k : String) (v : α) :
    List (String × α) :=
  if d.any (fun p => p.1 = k) then
    d.map (fun p => if p.1 = k then (k, v) else p)
  else d ++ [(k, v)]

/-- Outcome of running a Python block: a returned value, or a raised
exception carrying `str(e)`. -/
inductive PyOutcome (α : Type) where
  | ok (v : α)
  | exn (msg : String)

/-- `CapabilityTester._test_agent_capability`
(`data_ingestion/testing/scripts/capability-tester.py`): the try-block
dispatches to the per-agent helper and stamps `execution_time` on its
result; the except-clause returns the error dict with `str(e)`. -/
def test_agent_capability (body : PyOutcome JDict) (execution_time : Nat) : JDict :=
  match body with
  | .ok result => pyDictSet result "execution_time" (.num execution_time)
  | .exn e =>
      [("status", .str "error"), ("message", .str e),
       ("execution_time", .num execution_time)]

/-- `CapabilityTester._test_agent_capability`
(`data_quality/testing/scripts/capability_tester.py`): same try/except
shape as the data-ingestion tester's entry point. -/
def dq_test_agent_capability (body : PyOutcome JDict) (execution_time : Nat) : JDict :=
  match body with
  | .ok result => pyDictSet result "execution_time" (.num execution_time)
  | .exn e =>
      [("status", .str "error"), ("message", .str e),
       ("execution_time", .num execution_time)]

/-- One iteration of the suite loop in
`CapabilityTester.run_comprehensive_tests`: the try-arm records a
`completed` entry with the suite's results, the except-arm a `failed`
entry with `str(e)`. -/
def run_suite_entry (body : PyOutcome JDict) (execution_time : Nat) : JDict :=
  match body with
  | .ok suite_results =>
      [("status", .str "completed"), ("execution_time", .num execution_time),
       ("results", .obj suite_results)]
  | .exn e => [("status", .str "failed"), ("error", .str e)]

/-- The error dict the specification says every tester returns on an
exception: status `error` with the exception's message.  Written from the
spec, to be compared with the entry points' actual shapes. -/
def spec_error_shape (d : JDict) (e : String) : Prop :=
  jget d "status" = some (.str "error") ∧ jget d "message" = some (.str e)

/-- `CapabilityTester._generate_comprehensive_report`: the
`test_execution_summary` counters and the `detailed_results` section
(coverage / performance / compliance sections are canned constants and
carry no information about `results`). -/
structure ComprehensiveReport where
  total_test_suites : Nat
  successful_suites : Nat
  failed_suites : Nat
  total_execution_time : Nat
  detailed_results : List (String × JDict)

/-- `CapabilityTester._generate_comprehensive_report` on the accumulated
`overall_results`. -/
def generate_comprehensive_report (results : List (String × JDict)) :
    ComprehensiveReport :=
  { total_test_suites := results.length
    successful_suites :=
      (results.filter (fun r => jeqStr r.2 "status" "completed")).length
    failed_suites :=
      (results.filter (fun r => jeqStr r.2 "status" "failed")).length
    total_execution_time :=
      (results.map (fun r =>
        match jget r.2 "execution_time" with
        | some (.num t) => t
        | _ => 0)).sum
    detailed_results := results }

/-- `CapabilityTester.run_comprehensive_tests`: run each named suite,
record a `completed`/`failed` entry per suite in `overall_results`, and
generate the report.  A suite is a name together with its body's outcome
and elapsed time. -/
def run_comprehensive_tests (suites : List (String × PyOutcome JDict × Nat)) :
    ComprehensiveReport :=
  let overall_results := suites.foldl
    (fun acc s => pyDictSet acc s.1 (run_suite_entry s.2.1 s.2.2)) []
  generate_comprehensive_report overall_results

/-! ### Kubernetes integration tester (`test_agent_deployments`) -/

/-- The fields of a Kubernetes deployment object the tester reads:
`metadata.name`, `status.ready_replicas` (absent → `None`) and
`spec.replicas`.  The metadata passthrough fields of the per-agent entry
(creation timestamp, image, resources) do not affect the health logic and
are not modelled. -/
structure DeploymentInfo where
  name : String
  ready_replicas : Option Nat
  replicas : Option Nat
deriving DecidableEq, Repr

/-- Substring containment on character lists (Python's `needle in hay`). -/
def containsSub : List Char → List Char → Bool
  | [], needle => needle.isEmpty
  | c :: rest, needle => needle.isPrefixOf (c :: rest) || containsSub rest needle

/-- Python's `needle in hay` for strings (the tester only uses non-empty
needles). -/
def strContains (hay needle : String) : Bool :=
  containsSub hay.data needle.data

/-- The deployment filter in `test_agent_deployments`:
`'agent' in d.metadata.name and 'data-ingestion' in d.metadata.name`. -/
def agent_deployment_filter (d : DeploymentInfo) : Bool :=
  strContains d.name "agent" && strContains d.name "data-ingestion"

/-- The per-agent entry built in the loop of `test_agent_deployments`:
missing replica counts default to 0, and the agent is `healthy` exactly
when ready equals desired. -/
structure ReplicaEntry where
  desired_replicas : Nat
  ready_replicas : Nat
  status : String
deriving DecidableEq, Repr

/-- One loop iteration of `test_agent_deployments`. -/
def deployment_entry (d : DeploymentInfo) : ReplicaEntry :=
  let ready := d.ready_replicas.getD 0
  let desired := d.replicas.getD 0
  { desired_replicas := desired
    ready_replicas := ready
    status := if ready = desired then "healthy" else "degraded" }

/-- The dict returned by
`KubernetesIntegrationTester.test_agent_deployments` (success path). -/
structure AgentDeploymentsReport where
  status : String
  agents : List (String × ReplicaEntry)
  total_agents : Nat
  healthy_agents : Nat
deriving DecidableEq, Repr

/-- `KubernetesIntegrationTester.test_agent_deployments`
(`data_ingestion/testing/scripts/kubernetes-integration-tester.py`):
filter the listed deployments to the agent ones, build the per-agent
results dict, and aggregate the overall status and the healthy count. -/
def test_agent_deployments (deployments : List DeploymentInfo) :
    AgentDeploymentsReport :=
  let agent_deployments := deployments.filter agent_deployment_filter
  let results := agent_deployments.foldl
    (fun acc d => pyDictSet acc d.name (deployment_entry d)) []
  let overall_status :=
    if results.all (fun r => r.2.status = "healthy") then "healthy" else "degraded"
  { status := overall_status
    agents := results
    total_agents := results.length
    healthy_agents := (results.filter (fun r => r.2.status = "healthy")).length }

/-! ### Theorems about the orchestrator -/

/-- Source names in the table are distinct, so looking a member up by its
own name finds exactly that member. -/
lemma find_name_of_mem (cfg : SourceCfg) (hmem : cfg ∈ all_sources) :
    all_sources.find? (fun s => s.name = cfg.name) = some cfg := by
  fin_cases hmem <;> decide

/-- For a source in the table, `calculate_sla_deadline` is the current time
plus the context-adjusted SLA minutes. -/
lemma calculate_sla_deadline_of_mem (cfg : SourceCfg) (hmem : cfg ∈ all_sources)
    (now : Nat) (ctx : String) :
    calculate_sla_deadline now cfg.name ctx
      = now + adjust_sla_minutes cfg.sla_minutes ctx := by
  unfold calculate_sla_deadline
  rw [find_name_of_mem cfg hmem]

/-- **C1** (amended): `determine_business_priority` sends every wall-clock
time to exactly one of the three buckets: `market_hours_critical` when the
day is a weekday and the hour component lies between 9 and 16 inclusive
(i.e. times from 09:00 through 16:59), `weekend_maintenance` when the day is
Saturday or Sunday, and `off_hours_standard` in every other case. -/
theorem determine_business_priority_buckets (hour minute weekday : Nat) :
    (determine_business_priority hour minute weekday = "market_hours_critical"
        ↔ 9 ≤ hour ∧ hour ≤ 16 ∧ weekday < 5)
    ∧ (determine_business_priority hour minute weekday = "weekend_maintenance"
        ↔ 5 ≤ weekday)
    ∧ (determine_business_priority hour minute weekday = "off_hours_standard"
        ↔ ¬ (9 ≤ hour ∧ hour ≤ 16 ∧ weekday < 5) ∧ ¬ 5 ≤ weekday) := by
  unfold determine_business_priority
  split_ifs with h1 h2 <;> refine ⟨?_, ?_, ?_⟩ <;> simp_all

/-- **C1** counterexample: at 16:30 on a Monday the code returns
`market_hours_critical`, while the claim's clause (time between 09:00 and
16:00) assigns `off_hours_standard`. -/
theorem determine_business_priority_after_close :
    determine_business_priority 16 30 0 = "market_hours_critical"
      ∧ spec_business_priority 16 30 0 = "off_hours_standard"
      ∧ determine_business_priority 16 30 0 ≠ spec_business_priority 16 30 0 := by
  refine ⟨by decide, by decide, by decide⟩

/-- **C4** counterexample: the table names seven data sources, not a dozen. -/
theorem business_config_not_a_dozen :
    all_sources.length = 7 ∧ all_sources.length ≠ 12 := by
  constructor <;> decide

/-- **C2** counterexample: for `bloomberg_api` (base SLA 5 minutes) under
`market_hours_critical` the code returns `now + 2` minutes, because
`int(5 * 0.5)` truncates, while the claimed exact multiplier gives
`now + 5 * (1/2) = now + 2.5` minutes. -/
theorem calculate_sla_deadline_truncates :
    calculate_sla_deadline 0 "bloomberg_api" "market_hours_critical" = 2
      ∧ ((calculate_sla_deadline 0 "bloomberg_api" "market_hours_critical" : ℚ)
          ≠ (0 : ℚ) + (5 : ℚ) * spec_sla_multiplier "market_hours_critical") := by
  constructor
  · decide
  · have h : calculate_sla_deadline 0 "bloomberg_api" "market_hours_critical" = 2 := by decide
    rw [h]
    norm_num [spec_sla_multiplier]

/-- **C2** (amended): for every source in the table and every business
context, the deadline is the current time plus the base SLA minutes scaled
by the spec's multiplier (0.5 during market hours, 2.0 on weekends, 1.0
otherwise) and truncated down to a whole number of minutes. -/
theorem calculate_sla_deadline_table (cfg : SourceCfg) (hmem : cfg ∈ all_sources)
    (now : Nat) (ctx : String) :
    calculate_sla_deadline now cfg.name ctx
      = now + Int.toNat ⌊(cfg.sla_minutes : ℚ) * spec_sla_multiplier ctx⌋ := by
  rw [calculate_sla_deadline_of_mem cfg hmem]
  congr 1
  unfold adjust_sla_minutes spec_sla_multiplier
  set m := cfg.sla_minutes with hm
  split_ifs
  · have h2 : (m : ℚ) * (1 / 2) = (m : ℚ) / ((2 : ℕ) : ℚ) := by push_cast; ring
    rw [h2, Rat.floor_natCast_div_natCast]
    omega
  · have h2 : (m : ℚ) * 2 = ((m * 2 : ℕ) : ℚ) := by push_cast; ring
    rw [h2, Int.floor_natCast, Int.toNat_natCast]
  · rw [mul_one, Int.floor_natCast, Int.toNat_natCast]

/-- Witness for `calculate_sla_deadline_table`: `nyse_feed` (base 15
minutes) during market hours gets `1000 + ⌊15/2⌋ = 1007`. -/
theorem calculate_sla_deadline_table_witness :
    (⟨"nyse_feed", "high", 15⟩ : SourceCfg) ∈ all_sources
      ∧ calculate_sla_deadline 1000 "nyse_feed" "market_hours_critical"
          = 1000 + Int.toNat ⌊((15 : Nat) : ℚ) * spec_sla_multiplier "market_hours_critical"⌋ :=
  ⟨by decide,
   calculate_sla_deadline_table ⟨"nyse_feed", "high", 15⟩ (by decide)
     1000 "market_hours_critical"⟩

/-- **C3**: `select_data_sources` returns exactly the names the static
table admits for each pulled classification: for `market_hours_critical`
the critical/high market-data sources followed by all reference-data
sources; for `off_hours_standard` every source in the table; for
`weekend_maintenance` only the alternative-data sources. -/
theorem select_data_sources_table :
    select_data_sources (some "market_hours_critical")
        = ["bloomberg_api", "reuters_api", "nyse_feed",
           "master_securities_db", "corporate_actions_api"]
      ∧ select_data_sources (some "off_hours_standard")
        = ["bloomberg_api", "reuters_api", "nyse_feed",
           "master_securities_db", "corporate_actions_api",
           "social_sentiment_api", "satellite_imagery"]
      ∧ select_data_sources (some "weekend_maintenance")
        = ["social_sentiment_api", "satellite_imagery"] := by
  refine ⟨by decide, by decide, by decide⟩

/-- **C8**: for a source name outside the table, `calculate_sla_deadline`
returns the current time plus exactly one hour, whatever the context. -/
theorem calculate_sla_deadline_unknown_source (now : Nat) (source_name ctx : String)
    (h : source_name ∉ all_sources.map (·.name)) :
    calculate_sla_deadline now source_name ctx = now + 60 := by
  unfold calculate_sla_deadline
  have hfind : all_sources.find? (fun s => s.name = source_name) = none := by
    rw [List.find?_eq_none]
    intro s hs
    simp only [decide_eq_true_eq]
    intro heq
    exact h (heq ▸ List.mem_map_of_mem _ hs)
  rw [hfind]

/-- Witness for `calculate_sla_deadline_unknown_source` at a name absent
from the table. -/
theorem calculate_sla_deadline_unknown_source_witness :
    "nonexistent_api" ∉ all_sources.map (·.name)
      ∧ calculate_sla_deadline 0 "nonexistent_api" "weekend_maintenance" = 0 + 60 :=
  ⟨by decide,
   calculate_sla_deadline_unknown_source 0 "nonexistent_api" "weekend_maintenance"
     (by decide)⟩

/-- **C9**: for a pulled business context other than the three recognized
strings — including an absent (`None`) value — `select_data_sources`
returns the empty list. -/
theorem select_data_sources_unrecognized (bc : Option String)
    (h1 : bc ≠ some "market_hours_critical")
    (h2 : bc ≠ some "off_hours_standard")
    (h3 : bc ≠ some "weekend_maintenance") :
    select_data_sources bc = [] := by
  unfold select_data_sources
  simp [h1, h2, h3]

/-- Witness for `select_data_sources_unrecognized` at the absent (`None`)
context. -/
theorem select_data_sources_unrecognized_witness :
    (none : Option String) ≠ some "market_hours_critical"
      ∧ select_data_sources none = [] :=
  ⟨by decide,
   select_data_sources_unrecognized none (by decide) (by decide) (by decide)⟩

/-- **C10**: for every source in the table, the adjusted SLA minutes (and
hence the deadline) are monotone in the business context: market hours ≤
off hours ≤ weekend. -/
theorem sla_monotone_in_context (cfg : SourceCfg) (hmem : cfg ∈ all_sources) (now : Nat) :
    (adjust_sla_minutes cfg.sla_minutes "market_hours_critical"
        ≤ adjust_sla_minutes cfg.sla_minutes "off_hours_standard"
      ∧ adjust_sla_minutes cfg.sla_minutes "off_hours_standard"
        ≤ adjust_sla_minutes cfg.sla_minutes "weekend_maintenance")
    ∧ (calculate_sla_deadline now cfg.name "market_hours_critical"
        ≤ calculate_sla_deadline now cfg.name "off_hours_standard"
      ∧ calculate_sla_deadline now cfg.name "off_hours_standard"
        ≤ calculate_sla_deadline now cfg.name "weekend_maintenance") := by
  rw [calculate_sla_deadline_of_mem cfg hmem, calculate_sla_deadline_of_mem cfg hmem,
    calculate_sla_deadline_of_mem cfg hmem]
  have e1 : adjust_sla_minutes cfg.sla_minutes "market_hours_critical"
      = cfg.sla_minutes / 2 := rfl
  have e2 : adjust_sla_minutes cfg.sla_minutes "off_hours_standard"
      = cfg.sla_minutes := rfl
  have e3 : adjust_sla_minutes cfg.sla_minutes "weekend_maintenance"
      = cfg.sla_minutes * 2 := rfl
  rw [e1, e2, e3]
  omega

/-- Witness for `sla_monotone_in_context` at `bloomberg_api`. -/
theorem sla_monotone_in_context_witness :
    (⟨"bloomberg_api", "critical", 5⟩ : SourceCfg) ∈ all_sources
      ∧ ((adjust_sla_minutes 5 "market_hours_critical"
            ≤ adjust_sla_minutes 5 "off_hours_standard"
          ∧ adjust_sla_minutes 5 "off_hours_standard"
            ≤ adjust_sla_minutes 5 "weekend_maintenance")
        ∧ (calculate_sla_deadline 0 "bloomberg_api" "market_hours_critical"
            ≤ calculate_sla_deadline 0 "bloomberg_api" "off_hours_standard"
          ∧ calculate_sla_deadline 0 "bloomberg_api" "off_hours_standard"
            ≤ calculate_sla_deadline 0 "bloomberg_api" "weekend_maintenance")) :=
  ⟨by decide, sla_monotone_in_context ⟨"bloomberg_api", "critical", 5⟩ (by decide) 0⟩

/-- **C4** (amended): the rule table contains seven named data sources,
spread across the four priority tiers `critical`, `high`, `medium`, `low`
(each tier inhabited), which are exactly the keys of `retry_policies`. -/
theorem business_config_shape :
    all_sources.length = 7
      ∧ (all_sources.map (·.priority)).dedup = retry_policy_tiers
      ∧ retry_policy_tiers.length = 4 := by
  refine ⟨by decide, by decide, by decide⟩

/-! ### Theorems about the testers -/

/-- `pyDictSet` on a key absent from the dict appends the binding. -/
lemma pyDictSet_of_fresh {α : Type} (d : List (String × α)) (k : String) (v : α)
    (h : ∀ p ∈ d, p.1 ≠ k) : pyDictSet d k v = d ++ [(k, v)] := by
  unfold pyDictSet
  rw [if_neg]
  simp only [List.any_eq_true, decide_eq_true_eq, not_exists]
  rintro p ⟨hp, hk⟩
  exact h p hp hk

/-- Building a dict by `d[k] = v` assignments over entries with pairwise
distinct keys appends them in order. -/
lemma foldl_pyDictSet_eq_map {α β : Type} (key : β → String) (val : β → α)
    (l : List β) (acc : List (String × α))
    (hnd : (l.map key).Nodup) (hacc : ∀ b ∈ l, ∀ p ∈ acc, p.1 ≠ key b) :
    l.foldl (fun a b => pyDictSet a (key b) (val b)) acc
      = acc ++ l.map (fun b => (key b, val b)) := by
  induction l generalizing acc with
  | nil => simp
  | cons b t ih =>
      rw [List.map_cons, List.nodup_cons] at hnd
      obtain ⟨hb, hnd'⟩ := hnd
      have hacc' : ∀ b' ∈ t, ∀ p ∈ acc ++ [(key b, val b)], p.1 ≠ key b' := by
        intro b' hb' p hp
        rcases List.mem_append.mp hp with h1 | h2
        · exact hacc b' (List.mem_cons_of_mem _ hb') p h1
        · have hpe : p = (key b, val b) := by simpa using h2
          rw [hpe]
          intro hcontra
          have hkk : key b = key b' := hcontra
          exact hb (by rw [hkk]; exact List.mem_map_of_mem key hb')
      rw [List.foldl_cons,
        pyDictSet_of_fresh _ _ _ (fun p hp => hacc b (List.mem_cons_self b t) p hp),
        ih (acc ++ [(key b, val b)]) hnd' hacc']
      simp

/-- Filtering after a map counts the same entries as filtering the
preimages. -/
lemma length_filter_map_eq {α β : Type} (f : α → β) (p : β → Bool) (l : List α) :
    ((l.map f).filter p).length = (l.filter (fun a => p (f a))).length := by
  induction l with
  | nil => rfl
  | cons a t ih =>
      simp only [List.map_cons, List.filter_cons]
      cases hp : p (f a) <;> simp [hp, ih]

/-- Per-suite status counts partition the constructed suite entries. -/
lemma suite_status_counts (suites : List (String × PyOutcome JDict × Nat)) :
    (suites.map (fun s => (s.1, run_suite_entry s.2.1 s.2.2))).length
      = ((suites.map (fun s => (s.1, run_suite_entry s.2.1 s.2.2))).filter
          (fun r => jeqStr r.2 "status" "completed")).length
        + ((suites.map (fun s => (s.1, run_suite_entry s.2.1 s.2.2))).filter
          (fun r => jeqStr r.2 "status" "failed")).length := by
  induction suites with
  | nil => rfl
  | cons s t ih =>
      obtain ⟨name, body, time⟩ := s
      cases body with
      | ok v =>
          have hc : jeqStr (run_suite_entry (.ok v) time) "status" "completed"
              = true := rfl
          have hf : jeqStr (run_suite_entry (.ok v) time) "status" "failed"
              = false := rfl
          simp only [List.map_cons, List.filter_cons, hc, hf, List.length_cons,
            if_true, if_false, Bool.false_eq_true]
          omega
      | exn e =>
          have hc : jeqStr (run_suite_entry (.exn e) time) "status" "completed"
              = false := rfl
          have hf : jeqStr (run_suite_entry (.exn e) time) "status" "failed"
              = true := rfl
          simp only [List.map_cons, List.filter_cons, hc, hf, List.length_cons,
            if_true, if_false, Bool.false_eq_true]
          omega

/-- **C5** counterexample: inside `run_comprehensive_tests`, a suite whose
body raises is recorded as `{"status": "failed", "error": str(e)}`, so the
claimed `{"status": "error", "message": str(e)}` shape is not uniform
across the testers' entry points. -/
theorem run_suite_entry_not_error_shape :
    jget (run_suite_entry (.exn "boom") 0) "status" = some (.str "failed")
      ∧ ¬ spec_error_shape (run_suite_entry (.exn "boom") 0) "boom" := by
  refine ⟨rfl, ?_⟩
  intro h
  have h1 := h.1
  rw [show jget (run_suite_entry (.exn "boom") 0) "status"
      = some (.str "failed") from rfl] at h1
  simp only [Option.some.injEq] at h1
  injection h1 with h2
  exact absurd h2 (by decide)

/-- **C5** (amended): on an exception, `_test_agent_capability` of both
capability testers catches it and returns
`{"status": "error", "message": str(e), "execution_time": ...}` — the same
shape in both testers — while the suite loop of `run_comprehensive_tests`
catches and records `{"status": "failed", "error": str(e)}` instead. -/
theorem tester_error_shapes (e : String) (t : Nat) :
    spec_error_shape (test_agent_capability (.exn e) t) e
      ∧ spec_error_shape (dq_test_agent_capability (.exn e) t) e
      ∧ test_agent_capability (.exn e) t = dq_test_agent_capability (.exn e) t
      ∧ jget (run_suite_entry (.exn e) t) "status" = some (.str "failed")
      ∧ jget (run_suite_entry (.exn e) t) "error" = some (.str e) :=
  ⟨⟨rfl, rfl⟩, ⟨rfl, rfl⟩, rfl, rfl, rfl⟩

/-- **C7**: in the generated report, `detailed_results` maps every executed
suite to an entry whose status is `completed` or `failed`, and
`total_test_suites = successful_suites + failed_suites`. -/
theorem comprehensive_report_partition
    (suites : List (String × PyOutcome JDict × Nat))
    (hnd : (suites.map (·.1)).Nodup) :
    (∀ p ∈ (run_comprehensive_tests suites).detailed_results,
        jget p.2 "status" = some (.str "completed")
          ∨ jget p.2 "status" = some (.str "failed"))
    ∧ (run_comprehensive_tests suites).total_test_suites
        = (run_comprehensive_tests suites).successful_suites
          + (run_comprehensive_tests suites).failed_suites := by
  have hres : run_comprehensive_tests suites
      = generate_comprehensive_report
          (suites.map (fun s => (s.1, run_suite_entry s.2.1 s.2.2))) := by
    unfold run_comprehensive_tests
    rw [foldl_pyDictSet_eq_map (·.1) (fun s => run_suite_entry s.2.1 s.2.2)
      suites [] hnd (by simp)]
    rw [List.nil_append]
  rw [hres]
  constructor
  · intro p hp
    simp only [generate_comprehensive_report, List.mem_map] at hp
    obtain ⟨s, _hs, rfl⟩ := hp
    cases hb : s.2.1 with
    | ok v => left; rfl
    | exn e2 => right; rfl
  · simpa only [generate_comprehensive_report] using suite_status_counts suites

/-- A sample suite list: one completed suite, one raising suite. -/
def sampleSuites : List (String × PyOutcome JDict × Nat) :=
  [ ("Agent Capability Tests",
      .ok [("data_collector", .obj [("status", .str "success")])], 3),
    ("ML Model Tests", .exn "model load failed", 1) ]

/-- Witness for `comprehensive_report_partition` at `sampleSuites`. -/
theorem comprehensive_report_partition_witness :
    (sampleSuites.map (·.1)).Nodup
      ∧ ((∀ p ∈ (run_comprehensive_tests sampleSuites).detailed_results,
            jget p.2 "status" = some (.str "completed")
              ∨ jget p.2 "status" = some (.str "failed"))
        ∧ (run_comprehensive_tests sampleSuites).total_test_suites
            = (run_comprehensive_tests sampleSuites).successful_suites
              + (run_comprehensive_tests sampleSuites).failed_suites) :=
  ⟨by decide, comprehensive_report_partition sampleSuites (by decide)⟩

/-- **C6**: an agent deployment is reported healthy exactly when its ready
replica count equals its desired count (a missing count read as 0); the
aggregate status is healthy exactly when every matched agent deployment is
healthy; `healthy_agents` counts exactly the healthy matched deployments.
Kubernetes guarantees deployment names are unique in a namespace, which is
the `Nodup` hypothesis. -/
theorem test_agent_deployments_health (deployments : List DeploymentInfo)
    (hnd : ((deployments.filter agent_deployment_filter).map (·.name)).Nodup) :
    (∀ d ∈ deployments.filter agent_deployment_filter,
        ((deployment_entry d).status = "healthy"
          ↔ d.ready_replicas.getD 0 = d.replicas.getD 0))
    ∧ ((test_agent_deployments deployments).status = "healthy"
        ↔ ∀ d ∈ deployments.filter agent_deployment_filter,
            (deployment_entry d).status = "healthy")
    ∧ (test_agent_deployments deployments).healthy_agents
        = ((deployments.filter agent_deployment_filter).filter
            (fun d => (deployment_entry d).status = "healthy")).length := by
  have hfold : (deployments.filter agent_deployment_filter).foldl
      (fun acc d => pyDictSet acc d.name (deployment_entry d)) []
      = (deployments.filter agent_deployment_filter).map
          (fun d => (d.name, deployment_entry d)) := by
    have h := foldl_pyDictSet_eq_map (·.name) deployment_entry
      (deployments.filter agent_deployment_filter) [] hnd (by simp)
    simpa using h
  have hres : test_agent_deployments deployments
      = { status :=
            if ((deployments.filter agent_deployment_filter).map
                (fun d => (d.name, deployment_entry d))).all
                (fun r => r.2.status = "healthy")
            then "healthy" else "degraded"
          agents := (deployments.filter agent_deployment_filter).map
            (fun d => (d.name, deployment_entry d))
          total_agents := ((deployments.filter agent_deployment_filter).map
            (fun d => (d.name, deployment_entry d))).length
          healthy_agents := (((deployments.filter agent_deployment_filter).map
            (fun d => (d.name, deployment_entry d))).filter
            (fun r => r.2.status = "healthy")).length } := by
    simp only [test_agent_deployments]
    rw [hfold]
  have key : (((deployments.filter agent_deployment_filter).map
        (fun d => (d.name, deployment_entry d))).all
        (fun r => r.2.status = "healthy")) = true
      ↔ ∀ d ∈ deployments.filter agent_deployment_filter,
          (deployment_entry d).status = "healthy" := by
    constructor
    · intro h d hd
      exact of_decide_eq_true
        (List.all_eq_true.mp h (d.name, deployment_entry d)
          (List.mem_map_of_mem _ hd))
    · intro h
      apply List.all_eq_true.mpr
      intro r hr
      obtain ⟨d, hd, rfl⟩ := List.mem_map.mp hr
      exact decide_eq_true (h d hd)
  refine ⟨?_, ?_, ?_⟩
  · intro d _hd
    constructor
    · intro hs
      by_contra hne
      have hdeg : (deployment_entry d).status = "degraded" := by
        simp only [deployment_entry]
        rw [if_neg hne]
      rw [hdeg] at hs
      exact absurd hs (by decide)
    · intro he
      simp only [deployment_entry]
      rw [if_pos he]
  · rw [hres]
    dsimp only
    by_cases hforall : ∀ d ∈ deployments.filter agent_deployment_filter,
        (deployment_entry d).status = "healthy"
    · rw [if_pos (key.mpr hforall)]
      exact iff_of_true rfl hforall
    · rw [if_neg (fun hc => hforall (key.mp hc))]
      exact iff_of_false (by decide) hforall
  · rw [hres]
    dsimp only
    rw [length_filter_map_eq]

/-- A sample deployment list: two matched agents (one healthy, one not) and
one unmatched deployment. -/
def sampleDeployments : List DeploymentInfo :=
  [ ⟨"base-data-ingestion-agent-one", some 2, some 2⟩,
    ⟨"unrelated-deploy", some 0, some 3⟩,
    ⟨"data-ingestion-agent-two", none, some 1⟩ ]

/-- Witness for `test_agent_deployments_health` at `sampleDeployments`. -/
theorem test_agent_deployments_health_witness :
    ((sampleDeployments.filter agent_deployment_filter).map (·.name)).Nodup
      ∧ ((∀ d ∈ sampleDeployments.filter agent_deployment_filter,
            ((deployment_entry d).status = "healthy"
              ↔ d.ready_replicas.getD 0 = d.replicas.getD 0))
        ∧ ((test_agent_deployments sampleDeployments).status = "healthy"
            ↔ ∀ d ∈ sampleDeployments.filter agent_deployment_filter,
                (deployment_entry d).status = "healthy")
        ∧ (test_agent_deployments sampleDeployments).healthy_agents
            = ((sampleDeployments.filter agent_deployment_filter).filter
                (fun d => (deployment_entry d).status = "healthy")).length) :=
  ⟨by decide, test_agent_deployments_health sampleDeployments (by decide)⟩

end BaseAppLayer
